import Mathlib

/-!
Verification of the fundsTask scheduled-polling-and-ingestion pipeline.

This file gives a shallow embedding, in Lean 4, of the core logic of the
repository `cryptoSelect/fundsTask`:

* the credential/token manager (`auth` package: `TokenPair`, `IsValid`,
  `IsRefreshValid`, `GetTokens`, `ValidateAndRefreshToken`),
* the clock-aligner (`utils/timer.go`: `WaitForNext5MinuteMark`,
  `WaitForNext4HourMark`),
* the listing ingestion cycle (`funds` package: `processCoinInfoTask`,
  `saveCoinInfoToDB`),
* the fund-flow ingestion cycle (`funds` package: `processTradeInflow`,
  `queryAndSaveTradeInflow`, `GetTradeInflow`, and the tolerant field
  extraction helpers `getString` / `getInt` / `getFloat64` / `getBool`).

Modelling conventions:

* Wall-clock instants are explicit parameters (`now : Int`, Unix seconds, for
  token validity; `Nat` nanoseconds since a midnight-aligned epoch for the
  clock-aligner, mirroring Go's nanosecond `time.Time`).
* Network I/O, `strconv` parsing and the storage engine of the external
  `cryptoSelect/public` library are external collaborators (spec §1, §6);
  they enter the embedding as explicit oracle parameters (`Except`-valued
  wire outcomes, a `StrConv` record of parsing oracles) or as an explicit
  upsert on a list-valued store implementing the storage contract of spec §6.
* Go's dynamic `interface{}` values decoded from JSON become the inductive
  type `GoVal`; `float64` payload values are carried as `ℚ` (no floating
  point arithmetic is ever performed on them in the source: they are only
  moved, stored, or truncated to `int`).
* A Go panic (failed unchecked type assertion) is modelled as `Option.none`
  propagating out of the function that panics.
* Functions that perform network side effects additionally return an event
  count / trace (number of login calls, token attached to each request) so
  that claims about "exactly one login" or "which token a fetch used" are
  statable.

The file is organised as definitions first, then helper lemmas, then one
theorem per specification claim.
-/

/-! ## Definitions: credential/token manager (auth package, src/unnamed/part_005) -/

/-- Embedding of `auth.LoginData` (part_005 lines 64-67): the `data` field of a
login response. -/
structure LoginData where
  AccountToken : String
  RefreshToken : String
deriving DecidableEq, Repr

/-- Embedding of `auth.LoginResponse` (part_005 lines 55-61): the login
response envelope. -/
structure LoginResponse where
  Code : Int
  Data : LoginData
  Msg : String
  ReqID : String
  UserRole : String
deriving DecidableEq, Repr

/-- Embedding of `auth.TokenPair` (part_005 lines 70-75). `ExpiresAt` and
`RefreshExpiresAt` are Go `int64` Unix timestamps; `0` means "unset". -/
structure TokenPair where
  AccountToken : String
  RefreshToken : String
  ExpiresAt : Int
  RefreshExpiresAt : Int
deriving DecidableEq, Repr

/-- Embedding of `auth.NewTokenPair` (part_005 lines 83-88): both expiry
fields are left at the Go zero value `0`. -/
def NewTokenPair (accountToken refreshToken : String) : TokenPair :=
  { AccountToken := accountToken
    RefreshToken := refreshToken
    ExpiresAt := 0
    RefreshExpiresAt := 0 }

/-- Embedding of `(*TokenPair).IsValid` (part_005 lines 91-98). The wall
clock `time.Now().Unix()` is the explicit parameter `now`. -/
def TokenPair.IsValid (tp : TokenPair) (now : Int) : Bool :=
  if tp.ExpiresAt = 0 then
    true
  else
    decide (now < tp.ExpiresAt)

/-- Embedding of `(*TokenPair).IsRefreshValid` (part_005 lines 101-108). -/
def TokenPair.IsRefreshValid (tp : TokenPair) (now : Int) : Bool :=
  if tp.RefreshExpiresAt = 0 then
    true
  else
    decide (now < tp.RefreshExpiresAt)

/-- Embedding of `(*AuthService).Login` (part_005 lines 120-199) at the
oracle boundary: `wire` is the combined outcome of the HTTP POST, the HTTP
status check and the JSON unmarshal (all external collaborators); the
function's own remaining logic is the business-code check `Code != 200`. -/
def Login (wire : Except String LoginResponse) : Except String LoginResponse :=
  match wire with
  | .error e => .error e
  | .ok resp =>
      if resp.Code ≠ 200 then
        .error ("login failed: code=" ++ toString resp.Code ++ ", msg=" ++ resp.Msg)
      else
        .ok resp

/-- Embedding of `(*AuthService).GetTokens` (part_005 lines 202-209):
`Login` followed by `NewTokenPair` on the response data. -/
def GetTokens (wire : Except String LoginResponse) : Except String TokenPair :=
  match Login wire with
  | .error e => .error e
  | .ok resp => .ok (NewTokenPair resp.Data.AccountToken resp.Data.RefreshToken)

/-- Embedding of the body of `(*AuthService).ValidateAndRefreshToken`
(part_005 lines 239-257), abstracted over the token pair the function built on
lines 235-237: check `IsValid`; if valid return the account token with no
login, otherwise re-login via `GetTokens` and return the new account token.
The second component counts the login calls performed. -/
def checkAndRelogin (tp : TokenPair) (now : Int) (wire : Except String LoginResponse) :
    Except String String × Nat :=
  if tp.IsValid now then
    (.ok tp.AccountToken, 0)
  else
    match GetTokens wire with
    | .ok newTokenPair => (.ok newTokenPair.AccountToken, 1)
    | .error e => (.error ("failed to re-login: " ++ e), 1)

/-- Embedding of `(*AuthService).ValidateAndRefreshToken` (part_005 lines
233-258): it receives only the bare access-token string and builds
`&TokenPair{AccountToken: accessToken}`, whose other fields take the Go zero
value (`ExpiresAt = 0`), then runs the check-and-relogin body. -/
def ValidateAndRefreshToken (now : Int) (wire : Except String LoginResponse)
    (accessToken : String) : Except String String × Nat :=
  checkAndRelogin
    { AccountToken := accessToken
      RefreshToken := ""
      ExpiresAt := 0
      RefreshExpiresAt := 0 }
    now wire

/-! ## Definitions: scheduler/clock-aligner (src/utils/timer.go)

The wall clock `time.Now()` is modelled as `t : Nat`, the number of
nanoseconds since an epoch aligned to local midnight (so `t / 3600e9 % 24` is
Go's `now.Hour()`, `t / 60e9 % 60` is `now.Minute()`, and
`time.Date(y, m, d, H, M, 0, 0, loc)` for the current day is
`86400e9 * (t / 86400e9) + H * 3600e9 + M * 60e9`). `time.Sleep` itself is
external; the embedding computes the target instant `nextTime` that each wait
function sleeps until. -/

/-- Embedding of the boundary computation of `WaitForNext5MinuteMark`
(timer.go lines 17-41): the next 5-minute mark, wrapping the minute to `0` at
60 and adding one hour when the computed instant lies before `now`. -/
def next5MinuteMark (t : Nat) : Nat :=
  let nextMinute0 := (t / 60000000000 % 60 / 5 + 1) * 5
  let nextMinute := if 60 ≤ nextMinute0 then 0 else nextMinute0
  let nextTime := 86400000000000 * (t / 86400000000000) +
    t / 3600000000000 % 24 * 3600000000000 + nextMinute * 60000000000
  if nextTime < t then nextTime + 3600000000000 else nextTime

/-- Embedding of the boundary computation of `WaitForNext4HourMark`
(timer.go lines 44-68): the next 4-hour mark aligned to the day, wrapping the
hour to `0` at 24 and adding one day when the computed instant lies before
`now`. -/
def next4HourMark (t : Nat) : Nat :=
  let nextHour0 := (t / 3600000000000 % 24 / 4 + 1) * 4
  let nextHour := if 24 ≤ nextHour0 then 0 else nextHour0
  let nextTime := 86400000000000 * (t / 86400000000000) + nextHour * 3600000000000
  if nextTime < t then nextTime + 86400000000000 else nextTime

/-! ## Definitions: dynamic JSON values and tolerant field extraction
(src/unnamed/part_004)

A Go `interface{}` value produced by `json.Unmarshal` (or handed around as an
untyped payload) is modelled by `GoVal`. JSON numbers decode to Go `float64`,
modelled as `ℚ` (`jnum`); the separate `jint` constructor models a Go `int`
stored in an `interface{}`, which the helper functions also test for even
though JSON decoding never produces it. A missing map key yields the nil
interface, i.e. `jnull`. -/

/-- Model of a Go `interface{}` payload value. -/
inductive GoVal where
  | jnull : GoVal
  | jbool : Bool → GoVal
  | jnum : ℚ → GoVal
  | jint : Int → GoVal
  | jstr : String → GoVal
  | jarr : List GoVal → GoVal
  | jobj : List (String × GoVal) → GoVal

/-- Oracles for the external `strconv` and `fmt` collaborators (spec §1
excludes the parsing primitives from the core; only their outcomes matter). -/
structure StrConv where
  /-- outcome of `strconv.ParseInt(s, 10, 64)` -/
  parseI64 : String → Option Int
  /-- outcome of `strconv.ParseFloat(s, 64)`, the float carried as `ℚ` -/
  parseF64 : String → Option ℚ
  /-- outcome of `strconv.Atoi(s)` -/
  atoi : String → Option Int
  /-- outcome of `strconv.ParseBool(s)` -/
  parseB : String → Option Bool
  /-- outcome of `fmt.Sprintf("%v", v)` -/
  format : GoVal → String

/-- Go's `int(f)` conversion on a `float64` truncates toward zero; on the `ℚ`
model this is `Int.tdiv` (T-division, rounding toward zero) of numerator by
denominator: `goTrunc (-3/2) = -1`, matching Go's `int(-1.5)`. -/
def goTrunc (q : ℚ) : Int :=
  Int.tdiv q.num (q.den : Int)

/-- Go map indexing `m[k]`: the first binding for `k`, or the nil interface
when the key is absent. -/
def lookupField (fields : List (String × GoVal)) (k : String) : GoVal :=
  (List.lookup k fields).getD .jnull

/-- Embedding of `getString` (part_004 lines 317-325): nil becomes `""`, a
string is returned as is, anything else is formatted with `fmt.Sprintf`. -/
def getString (sc : StrConv) (value : GoVal) : String :=
  match value with
  | .jnull => ""
  | .jstr s => s
  | v => sc.format v

/-- Embedding of `getInt` (part_004 lines 327-343): nil and unhandled types
become `0`, a `float64` is truncated, an `int` is returned as is, and a string
goes through `strconv.Atoi`, failures degrading to `0`. -/
def getInt (sc : StrConv) (value : GoVal) : Int :=
  match value with
  | .jnull => 0
  | .jnum q => goTrunc q
  | .jint n => n
  | .jstr s =>
      match sc.atoi s with
      | some i => i
      | none => 0
  | _ => 0

/-- Embedding of `getFloat64` (part_004 lines 345-361): nil and unhandled
types become `0`, a `float64` is returned as is, an `int` is widened, and a
string goes through `strconv.ParseFloat`, failures degrading to `0`. -/
def getFloat64 (sc : StrConv) (value : GoVal) : ℚ :=
  match value with
  | .jnull => 0
  | .jnum q => q
  | .jint n => (n : ℚ)
  | .jstr s =>
      match sc.parseF64 s with
      | some f => f
      | none => 0
  | _ => 0

/-- Embedding of `getBool` (part_004 lines 363-376): nil and unhandled types
become `false`, a bool is returned as is, and a string goes through
`strconv.ParseBool`, failures degrading to `false`. -/
def getBool (sc : StrConv) (value : GoVal) : Bool :=
  match value with
  | .jnull => false
  | .jbool b => b
  | .jstr s =>
      match sc.parseB s with
      | some b => b
      | none => false
  | _ => false

/-! ## Definitions: listing ingestion (src/unnamed/part_002 and part_003) -/

/-- Embedding of `publicModels.VsCoinInfo`, the listed-asset row of the
external `cryptoSelect/public` library, restricted to the fields the core
writes (spec §3: `{tokenID (unique key), name, symbol, marketCapUSD}`). -/
structure VsCoinInfo where
  VSTokenID : Int
  Name : String
  Symbol : String
  MarketCap : ℚ
deriving DecidableEq, Repr

/-- Storage contract of spec §6 ("insert-or-overwrite-matching-unique-key"),
instantiating the external
`database.DB.Where("vs_token_id = ?", id).Assign(...).FirstOrCreate(...)`
call of part_003 lines 136-142: replace the first row whose `VSTokenID`
matches with the new field values, or append the new row when no row
matches. -/
def upsertVsCoinInfo : List VsCoinInfo → VsCoinInfo → List VsCoinInfo
  | [], r => [r]
  | x :: xs, r =>
      if x.VSTokenID = r.VSTokenID then
        r :: xs
      else
        x :: upsertVsCoinInfo xs r

/-- Outcome of one iteration of the `saveCoinInfoToDB` loop body on a single
listing entry. -/
inductive CoinOutcome where
  | panic : CoinOutcome
  | skip : CoinOutcome
  | save : VsCoinInfo → CoinOutcome
deriving DecidableEq, Repr

/-- Embedding of the loop body of `saveCoinInfoToDB` (part_003 lines
104-150), in source order: the unchecked assertions
`coin.(map[string]interface{})` and `coinMap["vsTokenId"].(string)` (panic on
failure), `strconv.ParseInt` (skip on failure), the unchecked assertion
`coinMap["marketCap"].(string)`, `strconv.ParseFloat` (skip on failure), and
the unchecked assertions `coinMap["name"].(string)` /
`coinMap["symbol"].(string)` inside the record literal. A successful entry
yields the `VsCoinInfo` row to upsert. -/
def coinStep (sc : StrConv) (coin : GoVal) : CoinOutcome :=
  match coin with
  | .jobj fields =>
      match lookupField fields "vsTokenId" with
      | .jstr s1 =>
          match sc.parseI64 s1 with
          | none => .skip
          | some vsTokenID =>
              match lookupField fields "marketCap" with
              | .jstr s2 =>
                  match sc.parseF64 s2 with
                  | none => .skip
                  | some marketCap =>
                      match lookupField fields "name", lookupField fields "symbol" with
                      | .jstr name, .jstr symbol =>
                          .save ⟨vsTokenID, name, symbol, marketCap⟩
                      | _, _ => .panic
              | _ => .panic
      | _ => .panic
  | _ => .panic

/-- Discriminator for the Go type assertion `.(string)`: true exactly on
string-typed interface values. -/
def isStr : GoVal → Bool
  | .jstr _ => true
  | _ => false

/-- Discriminator for the Go type assertion `.([]interface{})`: true exactly
on array-typed interface values. -/
def isArr : GoVal → Bool
  | .jarr _ => true
  | _ => false

/-- The first row of the store carrying the given `VSTokenID`, i.e. the row
a `Where("vs_token_id = ?")` query finds. -/
def findRow : List VsCoinInfo → Int → Option VsCoinInfo
  | [], _ => none
  | x :: xs, k => if x.VSTokenID = k then some x else findRow xs k

/-- Embedding of `saveCoinInfoToDB` (part_003 lines 103-161): iterate
`coinStep` over the listing entries against the store. `none` models a panic
aborting the batch; a normal return carries the final store, the number of
upserted entries and the number of skipped entries (the Go function itself
always returns `nil`). A failed upsert would also be skipped (lines 144-150);
the storage contract of spec §6 has no failure mode, so that branch is not
taken. -/
def saveCoinInfoToDB (sc : StrConv) :
    List GoVal → List VsCoinInfo → Option (List VsCoinInfo × Nat × Nat)
  | [], db => some (db, 0, 0)
  | coin :: rest, db =>
      match coinStep sc coin with
      | .panic => none
      | .skip =>
          (saveCoinInfoToDB sc rest db).map (fun r => (r.1, r.2.1, r.2.2 + 1))
      | .save v =>
          (saveCoinInfoToDB sc rest (upsertVsCoinInfo db v)).map
            (fun r => (r.1, r.2.1 + 1, r.2.2))

/-- The rows that the well-formed entries of a listing page decode to. -/
def decodeRows (sc : StrConv) (coinList : List GoVal) : List VsCoinInfo :=
  coinList.filterMap (fun coin =>
    match coinStep sc coin with
    | .save v => some v
    | _ => none)

/-- Fold a sequence of upserts over the store. -/
def applyRows (db : List VsCoinInfo) (rows : List VsCoinInfo) : List VsCoinInfo :=
  rows.foldl upsertVsCoinInfo db

/-- Embedding of `funds.CoinQueryResponse` (part_002 lines 28-34): the
listing response envelope with an untyped `data` field. -/
structure CoinQueryResponse where
  Code : Int
  Data : GoVal
  Msg : String
  ReqID : String
  UserRole : String

/-- Embedding of `(*CoinService).QueryCoins` (part_002 lines 84-167) at the
oracle boundary: `wire` is the combined outcome of the HTTP POST, the HTTP
status check and the JSON unmarshal; the function's own remaining logic is
the business-code check `Code != 200`. The access token only shapes the HTTP
request, which the wire oracle subsumes. -/
def QueryCoins (wire : Except String CoinQueryResponse) : Except String CoinQueryResponse :=
  match wire with
  | .error e => .error e
  | .ok resp =>
      if resp.Code ≠ 200 then
        .error ("query coins failed: code=" ++ toString resp.Code ++ ", msg=" ++ resp.Msg)
      else
        .ok resp

/-- The `json.Marshal` / `json.Unmarshal` round trip of part_003 lines 73-84
that reinterprets the untyped `data` field as `map[string]interface{}`: an
object yields its fields, JSON `null` unmarshals into a nil map with no
error, and any other value is an unmarshal error. -/
def unmarshalToMap (v : GoVal) : Except String (List (String × GoVal)) :=
  match v with
  | .jobj fields => .ok fields
  | .jnull => .ok []
  | _ => .error "failed to unmarshal coin data"

/-- Embedding of `processCoinInfoTask` (part_003 lines 39-100): login via
`GetTokens`, query via `QueryCoins`, re-check the business code, reinterpret
the data as a map, then take `coinData["list"].([]interface{})` — an
UNCHECKED type assertion (line 88, inside the log statement, and line 92),
which panics (`none`) whenever the `list` key is absent, null, or not an
array — and finally `saveCoinInfoToDB`. Every error path logs and returns
with the store untouched. -/
def processCoinInfoTask (sc : StrConv) (loginWire : Except String LoginResponse)
    (queryWire : Except String CoinQueryResponse) (db : List VsCoinInfo) :
    Option (List VsCoinInfo) :=
  match GetTokens loginWire with
  | .error _ => some db
  | .ok _tokenPair =>
      match QueryCoins queryWire with
      | .error _ => some db
      | .ok coinResp =>
          if coinResp.Code ≠ 200 then
            some db
          else
            match unmarshalToMap coinResp.Data with
            | .error _ => some db
            | .ok coinData =>
                match lookupField coinData "list" with
                | .jarr coinList =>
                    (saveCoinInfoToDB sc coinList db).map (fun r => r.1)
                | _ => none

/-! ## Definitions: fund-flow ingestion (src/unnamed/part_004) -/

/-- Embedding of `funds.TradeInflowResponse` (part_004 lines 24-30): the
fund-flow response envelope with an untyped `data` field. -/
structure TradeInflowResponse where
  Code : Int
  Data : GoVal
  Msg : String
  ReqID : String
  UserRole : String

/-- Embedding of `publicModels.CoinTradeInflowDto`, the flow-record row of
the external `cryptoSelect/public` library, restricted to the fields the
core writes (part_004 lines 273-291). -/
structure CoinTradeInflowDto where
  Symbol : String
  TimeParticleEnum : Int
  Time : String
  Stop : Bool
  StopTradeInflow : ℚ
  StopTradeAmount : ℚ
  StopTradeInflowChange : ℚ
  StopTradeAmountChange : ℚ
  Contract : Bool
  ContractTradeInflow : ℚ
  ContractTradeAmount : ℚ
  ContractTradeInflowChange : ℚ
  ContractTradeAmountChange : ℚ
  StopTradeIn : ℚ
  StopTradeOut : ℚ
  ContractTradeIn : ℚ
  ContractTradeOut : ℚ
deriving DecidableEq, Repr

/-- The record literal of part_004 lines 273-291: every field of a flow row
is extracted from the untyped `tradeMap` with the tolerant helpers; the
symbol comes from the outer payload. -/
def buildTradeRow (sc : StrConv) (symbol : String)
    (tradeMap : List (String × GoVal)) : CoinTradeInflowDto :=
  { Symbol := symbol
    TimeParticleEnum := getInt sc (lookupField tradeMap "timeParticleEnum")
    Time := getString sc (lookupField tradeMap "time")
    Stop := getBool sc (lookupField tradeMap "stop")
    StopTradeInflow := getFloat64 sc (lookupField tradeMap "stopTradeInflow")
    StopTradeAmount := getFloat64 sc (lookupField tradeMap "stopTradeAmount")
    StopTradeInflowChange := getFloat64 sc (lookupField tradeMap "stopTradeInflowChange")
    StopTradeAmountChange := getFloat64 sc (lookupField tradeMap "stopTradeAmountChange")
    Contract := getBool sc (lookupField tradeMap "contract")
    ContractTradeInflow := getFloat64 sc (lookupField tradeMap "contractTradeInflow")
    ContractTradeAmount := getFloat64 sc (lookupField tradeMap "contractTradeAmount")
    ContractTradeInflowChange := getFloat64 sc (lookupField tradeMap "contractTradeInflowChange")
    ContractTradeAmountChange := getFloat64 sc (lookupField tradeMap "contractTradeAmountChange")
    StopTradeIn := getFloat64 sc (lookupField tradeMap "stopTradeIn")
    StopTradeOut := getFloat64 sc (lookupField tradeMap "stopTradeOut")
    ContractTradeIn := getFloat64 sc (lookupField tradeMap "contractTradeIn")
    ContractTradeOut := getFloat64 sc (lookupField tradeMap "contractTradeOut") }

/-- Storage contract of spec §6 for flow records, instantiating the external
`database.DB.Where("symbol = ? AND time = ?", ...).Assign(...).FirstOrCreate(...)`
call of part_004 lines 294-296: upsert keyed on `(symbol, time)`. -/
def upsertTradeRow : List CoinTradeInflowDto → CoinTradeInflowDto → List CoinTradeInflowDto
  | [], r => [r]
  | x :: xs, r =>
      if x.Symbol = r.Symbol ∧ x.Time = r.Time then
        r :: xs
      else
        x :: upsertTradeRow xs r

/-- Embedding of `saveTradeInflowToDB` (part_004 lines 268-314): each row is
asserted to be a map with the UNCHECKED assertion
`trade.(map[string]interface{})` (panic — `none` — on failure), built with
the tolerant helpers and upserted; the Go function always returns `nil` (a
failed upsert is logged and skipped; the storage contract of spec §6 has no
failure mode, so that branch is not taken). -/
def saveTradeInflowToDB (sc : StrConv) (symbol : String) :
    List GoVal → List CoinTradeInflowDto → Option (List CoinTradeInflowDto)
  | [], db => some db
  | trade :: rest, db =>
      match trade with
      | .jobj tradeMap =>
          saveTradeInflowToDB sc symbol rest
            (upsertTradeRow db (buildTradeRow sc symbol tradeMap))
      | _ => none

/-- Wire oracles of the fund-flow loop: the login endpoint outcome and the
fund-flow endpoint outcome as a function of the access token attached to the
request and the keyword queried. -/
structure FlowWire where
  loginWire : Except String LoginResponse
  fetchWire : String → String → Except String TradeInflowResponse

/-- Embedding of `(*TradeInflowService).GetTradeInflow` (part_004 lines
75-123): validate/refresh the token, then perform the HTTP GET with the
validated token attached as the `accessToken` header. Besides the response
outcome it reports the token actually attached to the request (`none` if no
request was sent) and the number of login calls performed. -/
def GetTradeInflow (w : FlowWire) (now : Int) (accessToken vsTokenID : String) :
    Except String TradeInflowResponse × Option String × Nat :=
  match ValidateAndRefreshToken now w.loginWire accessToken with
  | (.error e, n) => (.error ("failed to validate/refresh token: " ++ e), none, n)
  | (.ok validToken, n) => (w.fetchWire validToken vsTokenID, some validToken, n)

/-- Result of one `queryAndSaveTradeInflow` call: the returned error if any,
the value held by the caller's token variable after the call (the function
receives `accessToken *string` but its body, part_004 lines 203-256, never
assigns through the pointer, so this is the input value), the token used for
the request, the logins performed, and the resulting flow store. -/
structure QInflowOut where
  err : Option String
  tokenAfter : String
  usedToken : Option String
  logins : Nat
  db : List CoinTradeInflowDto
deriving DecidableEq, Repr

/-- Embedding of `queryAndSaveTradeInflow` (part_004 lines 203-256): format
the asset id, fetch via `GetTradeInflow`, check the business code,
reinterpret the data as a map, treat a nil `coinTradeInflowDtoList` as a
benign empty result, assert it to be an array otherwise (UNCHECKED — panic
`none` when the key holds a non-array), and save the rows. -/
def queryAndSaveTradeInflow (w : FlowWire) (now : Int) (sc : StrConv)
    (accessToken : String) (vsTokenID : Int) (db : List CoinTradeInflowDto) :
    Option QInflowOut :=
  let vsTokenIDStr := toString vsTokenID
  match GetTradeInflow w now accessToken vsTokenIDStr with
  | (.error e, used, n) =>
      some ⟨some ("failed to get trade inflow: " ++ e), accessToken, used, n, db⟩
  | (.ok resp, used, n) =>
      if resp.Code ≠ 200 then
        some ⟨some ("invalid response code: " ++ toString resp.Code ++ ", msg: " ++ resp.Msg),
          accessToken, used, n, db⟩
      else
        match unmarshalToMap resp.Data with
        | .error e => some ⟨some e, accessToken, used, n, db⟩
        | .ok tradeData =>
            match lookupField tradeData "coinTradeInflowDtoList" with
            | .jnull => some ⟨none, accessToken, used, n, db⟩
            | .jarr tradeList =>
                match saveTradeInflowToDB sc
                    (getString sc (lookupField tradeData "symbol")) tradeList db with
                | none => none
                | some db2 => some ⟨none, accessToken, used, n, db2⟩
            | _ => none

/-- Result of one fund-flow cycle: final value of the `currentToken`
variable, success count, total count, login calls performed, the token used
for each asset's request in order, and the final flow store. -/
structure FlowCycleOut where
  finalToken : String
  success : Nat
  total : Nat
  logins : Nat
  usedTokens : List (Option String)
  db : List CoinTradeInflowDto
deriving DecidableEq, Repr

/-- The `for _, vsTokenID := range vsTokenIDs` loop of `processTradeInflow`
(part_004 lines 168-177): each iteration passes `&currentToken` to
`queryAndSaveTradeInflow` and counts successes; errors are logged and the
loop continues with the next asset. -/
def processTradeInflowLoop (w : FlowWire) (now : Int) (sc : StrConv) :
    List Int → String → List CoinTradeInflowDto →
    Option (String × Nat × Nat × List (Option String) × List CoinTradeInflowDto)
  | [], tok, db => some (tok, 0, 0, [], db)
  | id :: ids, tok, db =>
      match queryAndSaveTradeInflow w now sc tok id db with
      | none => none
      | some out =>
          match processTradeInflowLoop w now sc ids out.tokenAfter out.db with
          | none => none
          | some (tf, s, lg, tr, db2) =>
              some (tf, (if out.err = none then 1 else 0) + s, out.logins + lg,
                out.usedToken :: tr, db2)

/-- Embedding of `processTradeInflow` (part_004 lines 150-184): read the
asset ids from the store (`idsWire`, the external `getVSTokenIDsFromDB`
outcome), initialise `currentToken := accessToken`, and run the per-asset
loop. -/
def processTradeInflow (w : FlowWire) (now : Int) (sc : StrConv)
    (idsWire : Except String (List Int)) (accessToken : String)
    (db : List CoinTradeInflowDto) : Option FlowCycleOut :=
  match idsWire with
  | .error _ => some ⟨accessToken, 0, 0, 0, [], db⟩
  | .ok vsTokenIDs =>
      match processTradeInflowLoop w now sc vsTokenIDs accessToken db with
      | none => none
      | some (tf, s, lg, tr, db2) => some ⟨tf, s, vsTokenIDs.length, lg, tr, db2⟩

/-! ## Definitions: concrete test instances used by witnesses -/

/-- Value of a decimal digit character, `none` on anything else. -/
def digitVal (c : Char) : Option Nat :=
  if '0' ≤ c ∧ c ≤ '9' then some (c.toNat - 48) else none

/-- Accumulate a decimal number over a character list, failing on the first
non-digit. -/
def parseNatAux : List Char → Nat → Option Nat
  | [], acc => some acc
  | c :: cs, acc =>
      match digitVal c with
      | some d => parseNatAux cs (acc * 10 + d)
      | none => none

/-- A simple decimal-integer parser satisfying the `strconv` contract on
canonical non-negative decimals ("123" parses, "oops" does not). -/
def parseDec (s : String) : Option Int :=
  if s.data.isEmpty then none
  else (parseNatAux s.data 0).map (fun n => (n : Int))

/-- A concrete instantiation of the `strconv` contract for witnesses: the
integer parsers accept canonical decimal integers, the float parser accepts
canonical decimal integers as floats, the bool parser accepts the literals
`true` / `false`, and formatting is constant. -/
def testStrConv : StrConv where
  parseI64 := parseDec
  parseF64 := fun s => (parseDec s).map (fun n => (n : ℚ))
  atoi := parseDec
  parseB := fun s => if s = "true" then some true else if s = "false" then some false else none
  format := fun _ => "fmt"

/-- A well-formed listing entry used by witnesses. -/
def goodCoinEntry : GoVal :=
  .jobj [("vsTokenId", .jstr "1"), ("marketCap", .jstr "5"),
    ("name", .jstr "Bitcoin"), ("symbol", .jstr "BTC")]

/-- A second well-formed listing entry used by witnesses. -/
def goodCoinEntry2 : GoVal :=
  .jobj [("vsTokenId", .jstr "2"), ("marketCap", .jstr "9"),
    ("name", .jstr "Ether"), ("symbol", .jstr "ETH")]

/-- Fields of a listing entry whose `marketCap` is a non-numeric string: it
parses past `vsTokenId` and is skipped at the `ParseFloat` step. -/
def badCoinFields : List (String × GoVal) :=
  [("vsTokenId", .jstr "3"), ("marketCap", .jstr "oops"),
    ("name", .jstr "Junk"), ("symbol", .jstr "JNK")]

/-- A listing entry whose `marketCap` is a non-numeric string: it parses past
`vsTokenId` and is skipped at the `ParseFloat` step. -/
def badCoinEntry : GoVal :=
  .jobj badCoinFields

/-- The rational `-3/2`, standing for the `float64` value `-1.5`: a sample
negative fractional number exercising the toward-zero truncation of Go's
`int(f)` conversion (`int(-1.5) = -1`, not the floor `-2`). -/
def negThreeHalves : ℚ :=
  ⟨-3, 2, by norm_num, by norm_num⟩

/-- Fields of a listing entry whose `vsTokenId` is a non-numeric string AND
whose `name` field is absent: the `ParseInt` failure skips it before the
`name` assertion is ever reached. -/
def skipBeforeAssertFields : List (String × GoVal) :=
  [("vsTokenId", .jstr "zz"), ("marketCap", .jstr "1"), ("symbol", .jstr "S")]

/-- Fields of a listing entry whose `vsTokenId` and `marketCap` parse but
whose `name` field is absent: the unchecked `coinMap["name"].(string)`
assertion panics. -/
def panicFields : List (String × GoVal) :=
  [("vsTokenId", .jstr "4"), ("marketCap", .jstr "2"), ("symbol", .jstr "S")]

/-- Fund-flow wire oracle for witnesses: login succeeds with a fresh token
`"new"`, the fund-flow endpoint itself is unreachable. -/
def flowWireDown : FlowWire :=
  { loginWire := .ok ⟨200, ⟨"new", "nr"⟩, "", "", ""⟩
    fetchWire := fun _ _ => .error "connection refused" }

/-- The cycle outcome of `processTradeInflow` under `flowWireDown` for assets
`[5, 6]` starting from token `"old"`: both fetches fail, both requests carry
the original token, the token variable never changes. -/
def flowOutDown : FlowCycleOut :=
  { finalToken := "old"
    success := 0
    total := 2
    logins := 0
    usedTokens := [some "old", some "old"]
    db := [] }

/-! ## Helper lemmas -/

/-- Shared helper: the token pair built by `ValidateAndRefreshToken` has
`ExpiresAt = 0`, so its validity check succeeds for every clock value and the
function always echoes its input with zero logins. -/
theorem validateAndRefreshToken_eq (now : Int) (wire : Except String LoginResponse)
    (accessToken : String) :
    ValidateAndRefreshToken now wire accessToken = (.ok accessToken, 0) := by
  simp [ValidateAndRefreshToken, checkAndRelogin, TokenPair.IsValid]

/-! ## Claims C1, C2, C9 -/

/-- C1: for every token pair, the check-and-relogin body of
`ValidateAndRefreshToken` behaves as a conditional: if `IsValid` returns true
it returns the very same account token with zero login calls; if the pair's
`ExpiresAt` is set (nonzero) and not in the future, it performs exactly one
login, and when that login yields a 200 response it returns that login's
account token. -/
theorem claim_C1_validateAndRefresh_conditional (tp : TokenPair) (now : Int)
    (wire : Except String LoginResponse) :
    (tp.IsValid now = true → checkAndRelogin tp now wire = (.ok tp.AccountToken, 0)) ∧
    (tp.ExpiresAt ≠ 0 → tp.ExpiresAt ≤ now →
      (checkAndRelogin tp now wire).2 = 1 ∧
      ∀ resp : LoginResponse, wire = .ok resp → resp.Code = 200 →
        checkAndRelogin tp now wire = (.ok resp.Data.AccountToken, 1)) := by
  constructor
  · intro hvalid
    simp [checkAndRelogin, hvalid]
  · intro hne hle
    have hinvalid : tp.IsValid now = false := by
      simp [TokenPair.IsValid, hne]
      omega
    constructor
    · simp only [checkAndRelogin, hinvalid, Bool.false_eq_true, if_false]
      cases hG : GetTokens wire <;> simp
    · intro resp hwire hcode
      simp [checkAndRelogin, hinvalid, hwire, GetTokens, Login, hcode, NewTokenPair]

/-- Witness for C1: at `now = 100`, a pair with `ExpiresAt = 0` is echoed
back with zero logins, while a pair with `ExpiresAt = 50` triggers exactly one
login and returns the login's account token. -/
theorem claim_C1_witness :
    checkAndRelogin ⟨"tokA", "r", 0, 0⟩ 100 (.ok ⟨200, ⟨"new", "nr"⟩, "", "", ""⟩) =
      (.ok "tokA", 0) ∧
    checkAndRelogin ⟨"tokA", "r", 50, 0⟩ 100 (.ok ⟨200, ⟨"new", "nr"⟩, "", "", ""⟩) =
      (.ok "new", 1) := by
  refine ⟨?_, ?_⟩
  · exact (claim_C1_validateAndRefresh_conditional ⟨"tokA", "r", 0, 0⟩ 100
      (.ok ⟨200, ⟨"new", "nr"⟩, "", "", ""⟩)).1 (by decide)
  · exact ((claim_C1_validateAndRefresh_conditional ⟨"tokA", "r", 50, 0⟩ 100
      (.ok ⟨200, ⟨"new", "nr"⟩, "", "", ""⟩)).2 (by decide) (by decide)).2
      ⟨200, ⟨"new", "nr"⟩, "", "", ""⟩ rfl rfl

/-- C2: for every token pair and every clock value, `IsValid` returns true
iff `ExpiresAt` is unset (`0`) or the clock is strictly below `ExpiresAt`, and
symmetrically `IsRefreshValid` over `RefreshExpiresAt`; in particular a pair
with `ExpiresAt = 0` is valid at every clock value. -/
theorem claim_C2_isValid_iff (tp : TokenPair) (now : Int) :
    (tp.IsValid now = true ↔ (tp.ExpiresAt = 0 ∨ now < tp.ExpiresAt)) ∧
    (tp.IsRefreshValid now = true ↔ (tp.RefreshExpiresAt = 0 ∨ now < tp.RefreshExpiresAt)) ∧
    (tp.ExpiresAt = 0 → tp.IsValid now = true) := by
  refine ⟨?_, ?_, ?_⟩
  · simp [TokenPair.IsValid]
  · simp [TokenPair.IsRefreshValid]
  · intro h
    simp [TokenPair.IsValid, h]

/-- Witness for C2: a pair with `ExpiresAt = 0` and `RefreshExpiresAt = 7` at
clock `5` is valid both ways, as the characterization dictates. -/
theorem claim_C2_witness :
    TokenPair.IsValid ⟨"a", "b", 0, 7⟩ 5 = true ∧
    TokenPair.IsRefreshValid ⟨"a", "b", 0, 7⟩ 5 = true := by
  refine ⟨?_, ?_⟩
  · exact (claim_C2_isValid_iff ⟨"a", "b", 0, 7⟩ 5).1.2 (Or.inl rfl)
  · exact (claim_C2_isValid_iff ⟨"a", "b", 0, 7⟩ 5).2.1.2 (Or.inr (by decide))

/-- C9 (implicit): because `ValidateAndRefreshToken` receives only the bare
access-token string and builds a pair whose `ExpiresAt` is the zero value,
for every input string, every clock value and every login-wire oracle it
returns its input unchanged with a nil error and performs zero logins: the
re-login branch is unreachable. -/
theorem claim_C9_relogin_unreachable (now : Int) (wire : Except String LoginResponse)
    (accessToken : String) :
    ValidateAndRefreshToken now wire accessToken = (.ok accessToken, 0) :=
  validateAndRefreshToken_eq now wire accessToken

/-! ## Claim C3 -/

/-- C3: for every clock instant `t`, the instant `WaitForNext5MinuteMark`
sleeps until is exactly the least multiple of 5 minutes strictly after `t`
(closed form `300e9 * (t / 300e9) + 300e9`, hence strictly in the future, an
exact multiple of the period, and at most one period away), and symmetrically
`WaitForNext4HourMark` targets the least multiple of 4 hours strictly after
`t`; in particular a call at 10:07:00 targets 10:10:00 and a call at exactly
10:10:00 targets 10:15:00, never a zero wait. -/
theorem claim_C3_clock_boundaries (t : Nat) :
    next5MinuteMark t = 300000000000 * (t / 300000000000) + 300000000000 ∧
    t < next5MinuteMark t ∧
    next5MinuteMark t % 300000000000 = 0 ∧
    next5MinuteMark t ≤ t + 300000000000 ∧
    next4HourMark t = 14400000000000 * (t / 14400000000000) + 14400000000000 ∧
    t < next4HourMark t ∧
    next4HourMark t % 14400000000000 = 0 ∧
    next4HourMark t ≤ t + 14400000000000 ∧
    next5MinuteMark 36420000000000 = 36600000000000 ∧
    next5MinuteMark 36600000000000 = 36900000000000 := by
  have h5 : next5MinuteMark t = 300000000000 * (t / 300000000000) + 300000000000 := by
    simp only [next5MinuteMark]
    split <;> split <;> omega
  have h4 : next4HourMark t = 14400000000000 * (t / 14400000000000) + 14400000000000 := by
    simp only [next4HourMark]
    split <;> split <;> omega
  refine ⟨h5, ?_, ?_, ?_, h4, ?_, ?_, ?_, by decide, by decide⟩ <;> omega

/-! ## Claim C7 -/

/-- C7: the field-coercion helpers are total on every payload value: for
every parsing oracle, `getFloat64` and `getInt` return the numeric value when
the input is a number (an `int` widened, resp. a `float64` truncated toward
zero as Go's `int(f)` does — `int(-1.5) = -1`, checked by the last group), the
parsed value when it is a string the oracle parses (default `0` otherwise),
and zero on nil and on every other type; `getBool` returns the boolean or its
string parse and `false` otherwise; `getString` returns the string, `""` on
nil, and the `fmt` rendering otherwise; no input makes any of them fail. -/
theorem claim_C7_coercion_helpers_total (sc : StrConv) :
    (getString sc .jnull = "" ∧
      (∀ s, getString sc (.jstr s) = s) ∧
      (∀ b, getString sc (.jbool b) = sc.format (.jbool b)) ∧
      (∀ q, getString sc (.jnum q) = sc.format (.jnum q))) ∧
    (getInt sc .jnull = 0 ∧
      (∀ q, getInt sc (.jnum q) = goTrunc q) ∧
      (∀ n, getInt sc (.jint n) = n) ∧
      (∀ s, getInt sc (.jstr s) = (sc.atoi s).getD 0) ∧
      (∀ b, getInt sc (.jbool b) = 0) ∧
      (∀ l, getInt sc (.jarr l) = 0) ∧
      (∀ l, getInt sc (.jobj l) = 0)) ∧
    (getFloat64 sc .jnull = 0 ∧
      (∀ q, getFloat64 sc (.jnum q) = q) ∧
      (∀ n, getFloat64 sc (.jint n) = (n : ℚ)) ∧
      (∀ s, getFloat64 sc (.jstr s) = (sc.parseF64 s).getD 0) ∧
      (∀ b, getFloat64 sc (.jbool b) = 0) ∧
      (∀ l, getFloat64 sc (.jarr l) = 0) ∧
      (∀ l, getFloat64 sc (.jobj l) = 0)) ∧
    (getBool sc .jnull = false ∧
      (∀ b, getBool sc (.jbool b) = b) ∧
      (∀ s, getBool sc (.jstr s) = (sc.parseB s).getD false) ∧
      (∀ q, getBool sc (.jnum q) = false) ∧
      (∀ n, getBool sc (.jint n) = false) ∧
      (∀ l, getBool sc (.jarr l) = false) ∧
      (∀ l, getBool sc (.jobj l) = false)) ∧
    (goTrunc negThreeHalves = -1 ∧
      getInt sc (.jnum negThreeHalves) = -1) := by
  refine ⟨⟨rfl, fun s => rfl, fun b => rfl, fun q => rfl⟩,
    ⟨rfl, fun q => rfl, fun n => rfl, fun s => ?_, fun b => rfl, fun l => rfl, fun l => rfl⟩,
    ⟨rfl, fun q => rfl, fun n => rfl, fun s => ?_, fun b => rfl, fun l => rfl, fun l => rfl⟩,
    ⟨rfl, fun b => rfl, fun s => ?_, fun q => rfl, fun n => rfl, fun l => rfl, fun l => rfl⟩,
    by decide, by simp only [getInt]; decide⟩
  · cases h : sc.atoi s <;> simp [getInt, h]
  · cases h : sc.parseF64 s <;> simp [getFloat64, h]
  · cases h : sc.parseB s <;> simp [getBool, h]

/-! ## Helper lemmas about the listing upsert -/

/-- Re-upserting a row with the same key overwrites the previous upsert. -/
theorem upsert_same_id (db : List VsCoinInfo) (s u : VsCoinInfo)
    (h : u.VSTokenID = s.VSTokenID) :
    upsertVsCoinInfo (upsertVsCoinInfo db s) u = upsertVsCoinInfo db u := by
  induction db with
  | nil => simp [upsertVsCoinInfo, h]
  | cons x xs ih =>
      by_cases hx : x.VSTokenID = s.VSTokenID
      · simp [upsertVsCoinInfo, hx, h]
      · simp [upsertVsCoinInfo, hx, h, ih]

/-- The keys present after an upsert are the upserted key plus the previous
keys. -/
theorem mem_ids_upsert (db : List VsCoinInfo) (r : VsCoinInfo) (k : Int) :
    k ∈ (upsertVsCoinInfo db r).map VsCoinInfo.VSTokenID ↔
      k = r.VSTokenID ∨ k ∈ db.map VsCoinInfo.VSTokenID := by
  induction db with
  | nil => simp [upsertVsCoinInfo]
  | cons x xs ih =>
      by_cases hx : x.VSTokenID = r.VSTokenID
      · simp [upsertVsCoinInfo, hx]
      · simp [upsertVsCoinInfo, hx, ih]
        tauto

/-- Upserts with different keys commute, provided the first key is already
present (so neither order appends it at the end). -/
theorem upsert_comm (db : List VsCoinInfo) (s u : VsCoinInfo)
    (hne : u.VSTokenID ≠ s.VSTokenID)
    (hmem : s.VSTokenID ∈ db.map VsCoinInfo.VSTokenID) :
    upsertVsCoinInfo (upsertVsCoinInfo db s) u = upsertVsCoinInfo (upsertVsCoinInfo db u) s := by
  induction db with
  | nil => simp at hmem
  | cons x xs ih =>
      have hsu : s.VSTokenID ≠ u.VSTokenID := fun h => hne h.symm
      by_cases hxs : x.VSTokenID = s.VSTokenID
      · simp [upsertVsCoinInfo, hxs, hne, hsu]
      · by_cases hxu : x.VSTokenID = u.VSTokenID
        · simp [upsertVsCoinInfo, hxs, hxu, hne, hsu]
        · have hmem' : s.VSTokenID ∈ xs.map VsCoinInfo.VSTokenID := by
            rcases List.mem_map.1 hmem with ⟨y, hy, hyk⟩
            rcases List.mem_cons.1 hy with rfl | hy'
            · exact absurd hyk.symm (fun h => hxs h.symm)
            · exact List.mem_map.2 ⟨y, hy', hyk⟩
          simp [upsertVsCoinInfo, hxs, hxu, ih hmem']

/-- If the first row matching a key is exactly the row being upserted, the
upsert is a no-op. -/
theorem upsert_absorb (db : List VsCoinInfo) (s : VsCoinInfo)
    (h : findRow db s.VSTokenID = some s) :
    upsertVsCoinInfo db s = db := by
  induction db with
  | nil => simp [findRow] at h
  | cons x xs ih =>
      by_cases hx : x.VSTokenID = s.VSTokenID
      · simp only [findRow, if_pos hx, Option.some.injEq] at h
        simp [upsertVsCoinInfo, hx, h]
      · simp only [findRow, if_neg hx] at h
        simp [upsertVsCoinInfo, hx, ih h]

/-- After an upsert, the first row matching the upserted key is the upserted
row. -/
theorem findRow_upsert_self (db : List VsCoinInfo) (s : VsCoinInfo) :
    findRow (upsertVsCoinInfo db s) s.VSTokenID = some s := by
  induction db with
  | nil => simp [upsertVsCoinInfo, findRow]
  | cons x xs ih =>
      by_cases hx : x.VSTokenID = s.VSTokenID
      · simp [upsertVsCoinInfo, hx, findRow]
      · simp [upsertVsCoinInfo, hx, findRow, ih]

/-- An upsert with a different key does not change what a key lookup finds. -/
theorem findRow_upsert_ne (db : List VsCoinInfo) (r : VsCoinInfo) (k : Int)
    (h : r.VSTokenID ≠ k) :
    findRow (upsertVsCoinInfo db r) k = findRow db k := by
  induction db with
  | nil => simp [upsertVsCoinInfo, findRow, h]
  | cons x xs ih =>
      by_cases hx : x.VSTokenID = r.VSTokenID
      · simp [upsertVsCoinInfo, hx, findRow, h]
      · simp only [upsertVsCoinInfo, if_neg hx, findRow]
        rw [ih]

/-- Folding upserts preserves key membership. -/
theorem mem_ids_applyRows (rs : List VsCoinInfo) :
    ∀ (db : List VsCoinInfo) (k : Int), k ∈ db.map VsCoinInfo.VSTokenID →
      k ∈ (applyRows db rs).map VsCoinInfo.VSTokenID := by
  induction rs with
  | nil => intro db k h; exact h
  | cons r rs ih =>
      intro db k h
      exact ih _ _ ((mem_ids_upsert _ _ _).2 (Or.inr h))

/-- Every upserted row's key is present after the fold. -/
theorem rows_mem_ids_applyRows (rs : List VsCoinInfo) :
    ∀ (db : List VsCoinInfo) (r : VsCoinInfo), r ∈ rs →
      r.VSTokenID ∈ (applyRows db rs).map VsCoinInfo.VSTokenID := by
  induction rs with
  | nil => intro db r h; simp at h
  | cons s rs ih =>
      intro db r h
      rcases List.mem_cons.1 h with rfl | h'
      · exact mem_ids_applyRows rs _ _ ((mem_ids_upsert _ _ _).2 (Or.inl rfl))
      · exact ih _ _ h'

/-- Folding upserts whose keys all differ from `k` does not change what a
lookup of `k` finds. -/
theorem findRow_applyRows_ne (rs : List VsCoinInfo) :
    ∀ (db : List VsCoinInfo) (k : Int), (∀ r ∈ rs, r.VSTokenID ≠ k) →
      findRow (applyRows db rs) k = findRow db k := by
  induction rs with
  | nil => intro db k _; rfl
  | cons r rs ih =>
      intro db k h
      show findRow (applyRows (upsertVsCoinInfo db r) rs) k = findRow db k
      rw [ih _ _ (fun t ht => h t (List.mem_cons_of_mem _ ht)),
        findRow_upsert_ne _ _ _ (h r (List.mem_cons_self _ _))]

/-- A leading upsert is shadowed by a replay that writes the same key again,
provided the key is already present in the store. -/
theorem applyRows_upsert_shadow (rs : List VsCoinInfo) :
    ∀ (db : List VsCoinInfo) (s : VsCoinInfo),
      (∃ t ∈ rs, t.VSTokenID = s.VSTokenID) →
      s.VSTokenID ∈ db.map VsCoinInfo.VSTokenID →
      applyRows (upsertVsCoinInfo db s) rs = applyRows db rs := by
  induction rs with
  | nil =>
      intro db s h _
      rcases h with ⟨t, ht, _⟩
      simp at ht
  | cons u rs ih =>
      intro db s hex hmem
      by_cases hu : u.VSTokenID = s.VSTokenID
      · show applyRows (upsertVsCoinInfo (upsertVsCoinInfo db s) u) rs =
          applyRows (upsertVsCoinInfo db u) rs
        rw [upsert_same_id db s u hu]
      · have hex' : ∃ t ∈ rs, t.VSTokenID = s.VSTokenID := by
          rcases hex with ⟨t, ht, hts⟩
          rcases List.mem_cons.1 ht with rfl | h'
          · exact absurd hts hu
          · exact ⟨t, h', hts⟩
        show applyRows (upsertVsCoinInfo (upsertVsCoinInfo db s) u) rs =
          applyRows (upsertVsCoinInfo db u) rs
        rw [upsert_comm db s u hu hmem,
          ih (upsertVsCoinInfo db u) s hex' ((mem_ids_upsert _ _ _).2 (Or.inr hmem))]

/-- Replaying an identical sequence of upserts is a no-op. -/
theorem applyRows_idem (rs : List VsCoinInfo) :
    ∀ db : List VsCoinInfo, applyRows (applyRows db rs) rs = applyRows db rs := by
  induction rs with
  | nil => intro db; rfl
  | cons s rs ih =>
      intro db
      show applyRows (upsertVsCoinInfo (applyRows (upsertVsCoinInfo db s) rs) s) rs =
        applyRows (upsertVsCoinInfo db s) rs
      by_cases hex : ∃ t ∈ rs, t.VSTokenID = s.VSTokenID
      · rw [applyRows_upsert_shadow rs _ s hex
          (mem_ids_applyRows rs _ _ ((mem_ids_upsert _ _ _).2 (Or.inl rfl)))]
        exact ih (upsertVsCoinInfo db s)
      · push_neg at hex
        have hfind : findRow (applyRows (upsertVsCoinInfo db s) rs) s.VSTokenID = some s := by
          rw [findRow_applyRows_ne rs _ _ hex]
          exact findRow_upsert_self db s
        rw [upsert_absorb _ s hfind]
        exact ih (upsertVsCoinInfo db s)

/-- An upsert preserves distinctness of the keys. -/
theorem nodup_ids_upsert (db : List VsCoinInfo) (r : VsCoinInfo)
    (h : (db.map VsCoinInfo.VSTokenID).Nodup) :
    ((upsertVsCoinInfo db r).map VsCoinInfo.VSTokenID).Nodup := by
  induction db with
  | nil => simp [upsertVsCoinInfo]
  | cons x xs ih =>
      simp only [List.map_cons, List.nodup_cons] at h
      by_cases hx : x.VSTokenID = r.VSTokenID
      · simp only [upsertVsCoinInfo, if_pos hx, List.map_cons, List.nodup_cons]
        exact ⟨hx ▸ h.1, h.2⟩
      · simp only [upsertVsCoinInfo, if_neg hx, List.map_cons, List.nodup_cons]
        refine ⟨fun hmem => ?_, ih h.2⟩
        rcases (mem_ids_upsert xs r x.VSTokenID).1 hmem with h1 | h1
        · exact hx h1
        · exact h.1 h1

/-- A fold of upserts preserves distinctness of the keys. -/
theorem nodup_ids_applyRows (rs : List VsCoinInfo) :
    ∀ db : List VsCoinInfo, (db.map VsCoinInfo.VSTokenID).Nodup →
      ((applyRows db rs).map VsCoinInfo.VSTokenID).Nodup := by
  induction rs with
  | nil => intro db h; exact h
  | cons r rs ih => intro db h; exact ih _ (nodup_ids_upsert db r h)

/-! ## Helper lemmas about saveCoinInfoToDB -/

/-- A skipped entry adds one to the skip count and leaves the rest of the
batch alone. -/
theorem saveCoin_cons_skip (sc : StrConv) (e : GoVal) (l : List GoVal)
    (db : List VsCoinInfo) (he : coinStep sc e = CoinOutcome.skip) :
    saveCoinInfoToDB sc (e :: l) db =
      (saveCoinInfoToDB sc l db).map (fun r => (r.1, r.2.1, r.2.2 + 1)) := by
  simp [saveCoinInfoToDB, he]

/-- A batch in which every entry decodes to a row upserts all of them in
order, with no skip and no panic. -/
theorem saveCoin_all_save (sc : StrConv) (l : List GoVal) :
    ∀ db : List VsCoinInfo, (∀ e ∈ l, ∃ r, coinStep sc e = CoinOutcome.save r) →
      saveCoinInfoToDB sc l db = some (applyRows db (decodeRows sc l), l.length, 0) := by
  induction l with
  | nil =>
      intro db _
      simp [saveCoinInfoToDB, decodeRows, applyRows]
  | cons e l ih =>
      intro db h
      obtain ⟨r, hr⟩ := h e (List.mem_cons_self _ _)
      have hrest : ∀ x ∈ l, ∃ r, coinStep sc x = CoinOutcome.save r :=
        fun x hx => h x (List.mem_cons_of_mem _ hx)
      simp only [saveCoinInfoToDB, hr, ih (upsertVsCoinInfo db r) hrest, Option.map_some']
      simp [decodeRows, hr, applyRows]

/-- A batch with one skipped entry in the middle and decodable entries
everywhere else upserts exactly the decodable entries and counts one skip. -/
theorem saveCoin_one_skip (sc : StrConv) (bad : GoVal)
    (hbad : coinStep sc bad = CoinOutcome.skip) (l1 : List GoVal) :
    ∀ (l2 : List GoVal) (db : List VsCoinInfo),
      (∀ e ∈ l1 ++ l2, ∃ r, coinStep sc e = CoinOutcome.save r) →
      saveCoinInfoToDB sc (l1 ++ bad :: l2) db =
        some (applyRows db (decodeRows sc (l1 ++ l2)), (l1 ++ l2).length, 1) := by
  induction l1 with
  | nil =>
      intro l2 db h
      rw [List.nil_append, saveCoin_cons_skip sc bad l2 db hbad,
        saveCoin_all_save sc l2 db (by simpa using h)]
      rfl
  | cons e l1 ih =>
      intro l2 db h
      obtain ⟨r, hr⟩ := h e (by simp)
      have h' : ∀ x ∈ l1 ++ l2, ∃ r, coinStep sc x = CoinOutcome.save r :=
        fun x hx => h x (by rw [List.cons_append]; exact List.mem_cons_of_mem _ hx)
      rw [List.cons_append]
      simp only [saveCoinInfoToDB, hr, ih l2 (upsertVsCoinInfo db r) h', Option.map_some']
      simp [decodeRows, hr, applyRows]

/-! ## Claim C5 -/

/-- C5: for every listing page made of well-formed entries except one entry
skipped by a numeric-parse failure (non-numeric `vsTokenId` or `marketCap`
string), `saveCoinInfoToDB` upserts exactly the `N - 1` well-formed entries,
counts exactly one skip, and returns normally — the malformed entry never
aborts the batch. -/
theorem claim_C5_malformed_entry_skipped (sc : StrConv) (l1 l2 : List GoVal)
    (bad : GoVal) (db : List VsCoinInfo)
    (hwf : ∀ e ∈ l1 ++ l2, ∃ r, coinStep sc e = CoinOutcome.save r)
    (hbad : coinStep sc bad = CoinOutcome.skip) :
    saveCoinInfoToDB sc (l1 ++ bad :: l2) db =
      some (applyRows db (decodeRows sc (l1 ++ l2)), (l1 ++ l2).length, 1) ∧
    (l1 ++ bad :: l2).length = (l1 ++ l2).length + 1 := by
  refine ⟨saveCoin_one_skip sc bad hbad l1 l2 db hwf, ?_⟩
  simp only [List.length_append, List.length_cons]
  omega

/-- Witness for C5: a three-entry page whose middle entry has a non-numeric
`marketCap` yields two upserted rows and one skip. -/
theorem claim_C5_witness :
    saveCoinInfoToDB testStrConv [goodCoinEntry, badCoinEntry, goodCoinEntry2] [] =
      some ([⟨1, "Bitcoin", "BTC", 5⟩, ⟨2, "Ether", "ETH", 9⟩], 2, 1) := by
  have h := (claim_C5_malformed_entry_skipped testStrConv [goodCoinEntry] [goodCoinEntry2]
    badCoinEntry []
    (by
      intro e he
      simp only [List.cons_append, List.nil_append, List.mem_cons, List.not_mem_nil,
        or_false] at he
      rcases he with rfl | rfl
      · exact ⟨⟨1, "Bitcoin", "BTC", 5⟩, by decide⟩
      · exact ⟨⟨2, "Ether", "ETH", 9⟩, by decide⟩)
    (by decide)).1
  rw [show [goodCoinEntry, badCoinEntry, goodCoinEntry2] =
    [goodCoinEntry] ++ badCoinEntry :: [goodCoinEntry2] from rfl, h]
  decide

/-! ## Claim C8 -/

/-- C8: the listing upsert is idempotent: for every well-formed listing page
and every starting store whose keys are distinct (the declared unique-key
invariant of spec §3), running `saveCoinInfoToDB` leaves the store in a state
the second identical run does not change at all; the keys remain distinct and
every `tokenID` of the payload owns exactly one row. -/
theorem claim_C8_listing_upsert_idempotent (sc : StrConv) (l : List GoVal)
    (db : List VsCoinInfo)
    (hwf : ∀ e ∈ l, ∃ r, coinStep sc e = CoinOutcome.save r)
    (hnodup : (db.map VsCoinInfo.VSTokenID).Nodup) :
    saveCoinInfoToDB sc l db = some (applyRows db (decodeRows sc l), l.length, 0) ∧
    saveCoinInfoToDB sc l (applyRows db (decodeRows sc l)) =
      some (applyRows db (decodeRows sc l), l.length, 0) ∧
    ((applyRows db (decodeRows sc l)).map VsCoinInfo.VSTokenID).Nodup ∧
    ∀ r ∈ decodeRows sc l,
      ((applyRows db (decodeRows sc l)).map VsCoinInfo.VSTokenID).count r.VSTokenID = 1 := by
  have h1 := saveCoin_all_save sc l db hwf
  have h2 := saveCoin_all_save sc l (applyRows db (decodeRows sc l)) hwf
  rw [applyRows_idem] at h2
  have hnd := nodup_ids_applyRows (decodeRows sc l) db hnodup
  refine ⟨h1, h2, hnd, fun r hr => ?_⟩
  exact List.count_eq_one_of_mem hnd (rows_mem_ids_applyRows _ _ _ hr)

/-- Witness for C8: re-ingesting the two-coin page over a store already
holding an old row for token 1 is idempotent. -/
theorem claim_C8_witness :
    saveCoinInfoToDB testStrConv [goodCoinEntry, goodCoinEntry2] [⟨1, "Old", "OLD", 0⟩] =
      some (applyRows [⟨1, "Old", "OLD", 0⟩]
        (decodeRows testStrConv [goodCoinEntry, goodCoinEntry2]), 2, 0) ∧
    saveCoinInfoToDB testStrConv [goodCoinEntry, goodCoinEntry2]
        (applyRows [⟨1, "Old", "OLD", 0⟩]
          (decodeRows testStrConv [goodCoinEntry, goodCoinEntry2])) =
      some (applyRows [⟨1, "Old", "OLD", 0⟩]
        (decodeRows testStrConv [goodCoinEntry, goodCoinEntry2]), 2, 0) ∧
    ((applyRows [⟨1, "Old", "OLD", 0⟩]
        (decodeRows testStrConv [goodCoinEntry, goodCoinEntry2])).map
      VsCoinInfo.VSTokenID).Nodup ∧
    ∀ r ∈ decodeRows testStrConv [goodCoinEntry, goodCoinEntry2],
      ((applyRows [⟨1, "Old", "OLD", 0⟩]
          (decodeRows testStrConv [goodCoinEntry, goodCoinEntry2])).map
        VsCoinInfo.VSTokenID).count r.VSTokenID = 1 :=
  claim_C8_listing_upsert_idempotent testStrConv [goodCoinEntry, goodCoinEntry2]
    [⟨1, "Old", "OLD", 0⟩]
    (by
      intro e he
      simp only [List.mem_cons, List.not_mem_nil, or_false] at he
      rcases he with rfl | rfl
      · exact ⟨⟨1, "Bitcoin", "BTC", 5⟩, by decide⟩
      · exact ⟨⟨2, "Ether", "ETH", 9⟩, by decide⟩)
    (by decide)

/-! ## Helper lemma: a panicking entry aborts the whole batch -/

/-- If some entry panics and every entry before it does not, the whole batch
returns no result: the store update and the remaining entries are lost. -/
theorem saveCoin_panic_aborts (sc : StrConv) (bad : GoVal)
    (hbad : coinStep sc bad = CoinOutcome.panic) (l1 : List GoVal) :
    ∀ (l2 : List GoVal) (db : List VsCoinInfo),
      (∀ e ∈ l1, coinStep sc e ≠ CoinOutcome.panic) →
      saveCoinInfoToDB sc (l1 ++ bad :: l2) db = none := by
  induction l1 with
  | nil =>
      intro l2 db _
      simp [saveCoinInfoToDB, hbad]
  | cons e l1 ih =>
      intro l2 db h
      have he := h e (List.mem_cons_self _ _)
      have h' : ∀ x ∈ l1, coinStep sc x ≠ CoinOutcome.panic :=
        fun x hx => h x (List.mem_cons_of_mem _ hx)
      rw [List.cons_append]
      cases hc : coinStep sc e with
      | panic => exact absurd hc he
      | skip => simp [saveCoinInfoToDB, hc, ih l2 db h']
      | save r => simp [saveCoinInfoToDB, hc, ih l2 (upsertVsCoinInfo db r) h']

/-! ## Claim C10 -/

/-- C10 counterexample: an entry whose `name` field is absent but whose
`vsTokenId` is a non-numeric string does NOT panic — the `ParseInt` failure
skips it first, and the batch completes normally with one skip. This refutes
the claim that any entry with an absent `name` aborts the batch. -/
theorem claim_C10_counterexample :
    isStr (lookupField skipBeforeAssertFields "name") = false ∧
    saveCoinInfoToDB testStrConv [GoVal.jobj skipBeforeAssertFields] [] =
      some ([], 0, 1) := by
  refine ⟨by decide, by decide⟩

/-- C10 (amended): entry-level failure isolation covers only numeric-parse
failures of string-typed fields. An entry whose `vsTokenId`, or whose
`marketCap` after `vsTokenId` parses, is a string that fails to parse is
skipped before any later assertion runs (even with `name` or `symbol`
absent); but an entry whose `vsTokenId` is absent or not a string panics, an
entry whose `vsTokenId` parses but whose `marketCap` is absent or not a
string panics, an entry whose numeric fields parse but whose `name` or
`symbol` is absent or not a string panics, and any panicking entry aborts
the entire batch. -/
theorem claim_C10_amended_panic_conditions (sc : StrConv) :
    (∀ fields s1, lookupField fields "vsTokenId" = GoVal.jstr s1 → sc.parseI64 s1 = none →
      coinStep sc (GoVal.jobj fields) = CoinOutcome.skip) ∧
    (∀ fields s1 i s2, lookupField fields "vsTokenId" = GoVal.jstr s1 →
      sc.parseI64 s1 = some i →
      lookupField fields "marketCap" = GoVal.jstr s2 → sc.parseF64 s2 = none →
      coinStep sc (GoVal.jobj fields) = CoinOutcome.skip) ∧
    (∀ fields, isStr (lookupField fields "vsTokenId") = false →
      coinStep sc (GoVal.jobj fields) = CoinOutcome.panic) ∧
    (∀ fields s1 i, lookupField fields "vsTokenId" = GoVal.jstr s1 →
      sc.parseI64 s1 = some i → isStr (lookupField fields "marketCap") = false →
      coinStep sc (GoVal.jobj fields) = CoinOutcome.panic) ∧
    (∀ fields s1 i s2 mc, lookupField fields "vsTokenId" = GoVal.jstr s1 →
      sc.parseI64 s1 = some i →
      lookupField fields "marketCap" = GoVal.jstr s2 → sc.parseF64 s2 = some mc →
      (isStr (lookupField fields "name") = false ∨
        isStr (lookupField fields "symbol") = false) →
      coinStep sc (GoVal.jobj fields) = CoinOutcome.panic) ∧
    (∀ (l1 l2 : List GoVal) (bad : GoVal) (db : List VsCoinInfo),
      (∀ e ∈ l1, coinStep sc e ≠ CoinOutcome.panic) →
      coinStep sc bad = CoinOutcome.panic →
      saveCoinInfoToDB sc (l1 ++ bad :: l2) db = none) := by
  refine ⟨?_, ?_, ?_, ?_, ?_, ?_⟩
  · intro fields s1 h1 hp
    simp [coinStep, h1, hp]
  · intro fields s1 i s2 h1 hp1 h2 hp2
    simp [coinStep, h1, hp1, h2, hp2]
  · intro fields h
    cases hv : lookupField fields "vsTokenId" with
    | jstr s => rw [hv] at h; simp [isStr] at h
    | jnull => simp [coinStep, hv]
    | jbool b => simp [coinStep, hv]
    | jnum q => simp [coinStep, hv]
    | jint n => simp [coinStep, hv]
    | jarr a => simp [coinStep, hv]
    | jobj o => simp [coinStep, hv]
  · intro fields s1 i h1 hp h2
    cases hv : lookupField fields "marketCap" with
    | jstr s => rw [hv] at h2; simp [isStr] at h2
    | jnull => simp [coinStep, h1, hp, hv]
    | jbool b => simp [coinStep, h1, hp, hv]
    | jnum q => simp [coinStep, h1, hp, hv]
    | jint n => simp [coinStep, h1, hp, hv]
    | jarr a => simp [coinStep, h1, hp, hv]
    | jobj o => simp [coinStep, h1, hp, hv]
  · intro fields s1 i s2 mc h1 hp1 h2 hp2 h5
    rcases h5 with hn | hs
    · cases hv : lookupField fields "name" with
      | jstr s => rw [hv] at hn; simp [isStr] at hn
      | jnull =>
          cases hw : lookupField fields "symbol" <;>
            simp [coinStep, h1, hp1, h2, hp2, hv, hw]
      | jbool b =>
          cases hw : lookupField fields "symbol" <;>
            simp [coinStep, h1, hp1, h2, hp2, hv, hw]
      | jnum q =>
          cases hw : lookupField fields "symbol" <;>
            simp [coinStep, h1, hp1, h2, hp2, hv, hw]
      | jint n =>
          cases hw : lookupField fields "symbol" <;>
            simp [coinStep, h1, hp1, h2, hp2, hv, hw]
      | jarr a =>
          cases hw : lookupField fields "symbol" <;>
            simp [coinStep, h1, hp1, h2, hp2, hv, hw]
      | jobj o =>
          cases hw : lookupField fields "symbol" <;>
            simp [coinStep, h1, hp1, h2, hp2, hv, hw]
    · cases hw : lookupField fields "symbol" with
      | jstr s => rw [hw] at hs; simp [isStr] at hs
      | jnull =>
          cases hv : lookupField fields "name" <;>
            simp [coinStep, h1, hp1, h2, hp2, hv, hw]
      | jbool b =>
          cases hv : lookupField fields "name" <;>
            simp [coinStep, h1, hp1, h2, hp2, hv, hw]
      | jnum q =>
          cases hv : lookupField fields "name" <;>
            simp [coinStep, h1, hp1, h2, hp2, hv, hw]
      | jint n =>
          cases hv : lookupField fields "name" <;>
            simp [coinStep, h1, hp1, h2, hp2, hv, hw]
      | jarr a =>
          cases hv : lookupField fields "name" <;>
            simp [coinStep, h1, hp1, h2, hp2, hv, hw]
      | jobj o =>
          cases hv : lookupField fields "name" <;>
            simp [coinStep, h1, hp1, h2, hp2, hv, hw]
  · exact fun l1 l2 bad db h hbad => saveCoin_panic_aborts sc bad hbad l1 l2 db h

/-- Witness for C10 (amended): the skip-before-assert entry is skipped; the
entry whose `marketCap` string fails to parse is skipped; the entry with
parseable numerics but an absent `name` panics; and placing the panicking
entry after a good entry aborts the whole batch. -/
theorem claim_C10_witness :
    coinStep testStrConv (GoVal.jobj skipBeforeAssertFields) = CoinOutcome.skip ∧
    coinStep testStrConv (GoVal.jobj badCoinFields) = CoinOutcome.skip ∧
    coinStep testStrConv (GoVal.jobj panicFields) = CoinOutcome.panic ∧
    saveCoinInfoToDB testStrConv [goodCoinEntry, GoVal.jobj panicFields] [] = none := by
  refine ⟨?_, ?_, ?_, ?_⟩
  · exact (claim_C10_amended_panic_conditions testStrConv).1 skipBeforeAssertFields "zz"
      rfl (by decide)
  · exact (claim_C10_amended_panic_conditions testStrConv).2.1 badCoinFields "3" 3 "oops"
      rfl (by decide) rfl (by decide)
  · exact (claim_C10_amended_panic_conditions testStrConv).2.2.2.2.1 panicFields "4" 4 "2" 2
      rfl (by decide) rfl (by decide) (Or.inl (by decide))
  · exact (claim_C10_amended_panic_conditions testStrConv).2.2.2.2.2 [goodCoinEntry] []
      (GoVal.jobj panicFields) []
      (by
        intro e he
        simp only [List.mem_cons, List.not_mem_nil, or_false] at he
        subst he
        decide)
      ((claim_C10_amended_panic_conditions testStrConv).2.2.2.2.1 panicFields "4" 4 "2" 2
        rfl (by decide) rfl (by decide) (Or.inl (by decide)))

/-! ## Claim C6 -/

/-- C6 counterexample: a listing response with business code 200 whose data
object has no `list` key — the empty/missing-data case — makes
`processCoinInfoTask` panic on the unchecked assertion
`coinData["list"].([]interface{})` instead of logging and returning with the
store unchanged: the result is a panic (`none`), not a clean return
(`some []`). -/
theorem claim_C6_counterexample :
    processCoinInfoTask testStrConv (.ok ⟨200, ⟨"tok", "ref"⟩, "", "", ""⟩)
      (.ok ⟨200, GoVal.jobj [("total", GoVal.jnum 0)], "", "", ""⟩) [] = none ∧
    processCoinInfoTask testStrConv (.ok ⟨200, ⟨"tok", "ref"⟩, "", "", ""⟩)
      (.ok ⟨200, GoVal.jobj [("total", GoVal.jnum 0)], "", "", ""⟩) [] ≠ some [] := by
  refine ⟨by decide, by decide⟩

/-- C6 (amended): when login fails, when the listing query fails at the
transport/envelope level, when the business code is not 200, or when the data
cannot be reinterpreted as a map, `processCoinInfoTask` returns with the
store untouched and no upsert performed (the cycle is abandoned, not
retried); but when the response is otherwise well-formed and its data lacks a
`list` array (empty/missing data), the unchecked type assertion panics
(`none`) instead of returning. -/
theorem claim_C6_amended_batch_errors (sc : StrConv) (db : List VsCoinInfo)
    (loginWire : Except String LoginResponse) (queryWire : Except String CoinQueryResponse) :
    (∀ e, GetTokens loginWire = .error e →
      processCoinInfoTask sc loginWire queryWire db = some db) ∧
    (∀ tp e, GetTokens loginWire = .ok tp → queryWire = .error e →
      processCoinInfoTask sc loginWire queryWire db = some db) ∧
    (∀ tp resp, GetTokens loginWire = .ok tp → queryWire = .ok resp → resp.Code ≠ 200 →
      processCoinInfoTask sc loginWire queryWire db = some db) ∧
    (∀ tp resp e, GetTokens loginWire = .ok tp → queryWire = .ok resp → resp.Code = 200 →
      unmarshalToMap resp.Data = .error e →
      processCoinInfoTask sc loginWire queryWire db = some db) ∧
    (∀ tp resp coinData, GetTokens loginWire = .ok tp → queryWire = .ok resp →
      resp.Code = 200 → unmarshalToMap resp.Data = .ok coinData →
      isArr (lookupField coinData "list") = false →
      processCoinInfoTask sc loginWire queryWire db = none) := by
  refine ⟨?_, ?_, ?_, ?_, ?_⟩
  · intro e hL
    simp [processCoinInfoTask, hL]
  · intro tp e hL hQ
    simp [processCoinInfoTask, hL, hQ, QueryCoins]
  · intro tp resp hL hQ hcode
    simp [processCoinInfoTask, hL, hQ, QueryCoins, hcode]
  · intro tp resp e hL hQ hcode hU
    simp [processCoinInfoTask, hL, hQ, QueryCoins, hcode, hU]
  · intro tp resp coinData hL hQ hcode hU harr
    cases hv : lookupField coinData "list" with
    | jarr a => rw [hv] at harr; simp [isArr] at harr
    | jnull => simp [processCoinInfoTask, hL, hQ, QueryCoins, hcode, hU, hv]
    | jbool b => simp [processCoinInfoTask, hL, hQ, QueryCoins, hcode, hU, hv]
    | jnum q => simp [processCoinInfoTask, hL, hQ, QueryCoins, hcode, hU, hv]
    | jint n => simp [processCoinInfoTask, hL, hQ, QueryCoins, hcode, hU, hv]
    | jstr s => simp [processCoinInfoTask, hL, hQ, QueryCoins, hcode, hU, hv]
    | jobj o => simp [processCoinInfoTask, hL, hQ, QueryCoins, hcode, hU, hv]

/-- Witness for C6 (amended): each batch-level error path at a concrete
input — login failure, transport failure, business code 500, string-typed
data — returns the store unchanged, and a well-formed response whose data
object lacks a `list` array panics. -/
theorem claim_C6_witness :
    processCoinInfoTask testStrConv (.error "login down")
      (.ok ⟨200, GoVal.jnull, "", "", ""⟩) [] = some [] ∧
    processCoinInfoTask testStrConv (.ok ⟨200, ⟨"tok", "ref"⟩, "", "", ""⟩)
      (.error "connection refused") [] = some [] ∧
    processCoinInfoTask testStrConv (.ok ⟨200, ⟨"tok", "ref"⟩, "", "", ""⟩)
      (.ok ⟨500, GoVal.jnull, "server error", "", ""⟩) [] = some [] ∧
    processCoinInfoTask testStrConv (.ok ⟨200, ⟨"tok", "ref"⟩, "", "", ""⟩)
      (.ok ⟨200, GoVal.jstr "", "", "", ""⟩) [] = some [] ∧
    processCoinInfoTask testStrConv (.ok ⟨200, ⟨"tok", "ref"⟩, "", "", ""⟩)
      (.ok ⟨200, GoVal.jobj [], "", "", ""⟩) [] = none := by
  refine ⟨?_, ?_, ?_, ?_, ?_⟩
  · exact (claim_C6_amended_batch_errors testStrConv [] (.error "login down")
      (.ok ⟨200, GoVal.jnull, "", "", ""⟩)).1 "login down" rfl
  · exact (claim_C6_amended_batch_errors testStrConv [] (.ok ⟨200, ⟨"tok", "ref"⟩, "", "", ""⟩)
      (.error "connection refused")).2.1 (NewTokenPair "tok" "ref") "connection refused" rfl rfl
  · exact (claim_C6_amended_batch_errors testStrConv [] (.ok ⟨200, ⟨"tok", "ref"⟩, "", "", ""⟩)
      (.ok ⟨500, GoVal.jnull, "server error", "", ""⟩)).2.2.1 (NewTokenPair "tok" "ref")
      ⟨500, GoVal.jnull, "server error", "", ""⟩ rfl rfl (by decide)
  · exact (claim_C6_amended_batch_errors testStrConv [] (.ok ⟨200, ⟨"tok", "ref"⟩, "", "", ""⟩)
      (.ok ⟨200, GoVal.jstr "", "", "", ""⟩)).2.2.2.1 (NewTokenPair "tok" "ref")
      ⟨200, GoVal.jstr "", "", "", ""⟩ "failed to unmarshal coin data" rfl rfl rfl rfl
  · exact (claim_C6_amended_batch_errors testStrConv [] (.ok ⟨200, ⟨"tok", "ref"⟩, "", "", ""⟩)
      (.ok ⟨200, GoVal.jobj [], "", "", ""⟩)).2.2.2.2 (NewTokenPair "tok" "ref")
      ⟨200, GoVal.jobj [], "", "", ""⟩ [] rfl rfl rfl rfl (by decide)

/-! ## Helper lemmas for the fund-flow cycle -/

/-- One `queryAndSaveTradeInflow` call, whatever its outcome, leaves the
caller's token variable at its input value, attaches exactly the input token
to the request it sends, and performs no login. -/
theorem queryAndSave_token_unchanged (w : FlowWire) (now : Int) (sc : StrConv)
    (tok : String) (i : Int) (db : List CoinTradeInflowDto) (out : QInflowOut)
    (h : queryAndSaveTradeInflow w now sc tok i db = some out) :
    out.tokenAfter = tok ∧ out.usedToken = some tok ∧ out.logins = 0 := by
  simp only [queryAndSaveTradeInflow, GetTradeInflow, validateAndRefreshToken_eq] at h
  cases hf : w.fetchWire tok (toString i) with
  | error e =>
      rw [hf] at h
      injection h with h
      subst h
      exact ⟨rfl, rfl, rfl⟩
  | ok resp =>
      rw [hf] at h
      dsimp only at h
      by_cases hcode : resp.Code ≠ 200
      · rw [if_pos hcode] at h
        injection h with h
        subst h
        exact ⟨rfl, rfl, rfl⟩
      · rw [if_neg hcode] at h
        cases hu : unmarshalToMap resp.Data with
        | error e =>
            rw [hu] at h
            injection h with h
            subst h
            exact ⟨rfl, rfl, rfl⟩
        | ok tradeData =>
            rw [hu] at h
            dsimp only at h
            cases hv : lookupField tradeData "coinTradeInflowDtoList" with
            | jnull =>
                rw [hv] at h
                injection h with h
                subst h
                exact ⟨rfl, rfl, rfl⟩
            | jarr tradeList =>
                rw [hv] at h
                dsimp only at h
                cases hs : saveTradeInflowToDB sc
                    (getString sc (lookupField tradeData "symbol")) tradeList db with
                | none => rw [hs] at h; cases h
                | some db2 =>
                    rw [hs] at h
                    injection h with h
                    subst h
                    exact ⟨rfl, rfl, rfl⟩
            | jbool b => rw [hv] at h; cases h
            | jnum q => rw [hv] at h; cases h
            | jint n => rw [hv] at h; cases h
            | jstr s => rw [hv] at h; cases h
            | jobj o => rw [hv] at h; cases h

/-- Across the whole per-asset loop the token variable never changes, no
login happens, and every request carries the original token. -/
theorem processLoop_token (w : FlowWire) (now : Int) (sc : StrConv) (ids : List Int) :
    ∀ (tok : String) (db : List CoinTradeInflowDto)
      (r : String × Nat × Nat × List (Option String) × List CoinTradeInflowDto),
      processTradeInflowLoop w now sc ids tok db = some r →
      r.1 = tok ∧ r.2.2.1 = 0 ∧ r.2.2.2.1 = List.replicate ids.length (some tok) := by
  induction ids with
  | nil =>
      intro tok db r h
      injection h with h
      subst h
      exact ⟨rfl, rfl, rfl⟩
  | cons i ids ih =>
      intro tok db r h
      simp only [processTradeInflowLoop] at h
      cases hq : queryAndSaveTradeInflow w now sc tok i db with
      | none => rw [hq] at h; cases h
      | some out =>
          rw [hq] at h
          dsimp only at h
          obtain ⟨hta, hut, hlg⟩ := queryAndSave_token_unchanged w now sc tok i db out hq
          cases hl : processTradeInflowLoop w now sc ids out.tokenAfter out.db with
          | none => rw [hl] at h; cases h
          | some r2 =>
              rw [hl] at h
              obtain ⟨htf, hlg2, htr⟩ := ih out.tokenAfter out.db r2 hl
              injection h with h
              subst h
              refine ⟨by simp [htf, hta], by simp [hlg, hlg2], ?_⟩
              simp [hut, htr, hta, List.replicate]

/-! ## Claim C4 -/

/-- C4 (as the code actually behaves): in every fund-flow cycle, whatever the
oracles do, the `currentToken` variable still holds the ORIGINAL access token
when the cycle ends, zero logins are performed, and every per-asset request
carries the original token. The threading the claim describes cannot happen:
`ValidateAndRefreshToken` never detects expiry (the pair it builds has
`ExpiresAt = 0`), and `queryAndSaveTradeInflow` never assigns a refreshed
token back through its `*string` parameter, so a refreshed token could never
reach the following assets. -/
theorem claim_C4_token_not_threaded (w : FlowWire) (now : Int) (sc : StrConv)
    (ids : List Int) (accessToken : String) (db : List CoinTradeInflowDto)
    (out : FlowCycleOut)
    (h : processTradeInflow w now sc (.ok ids) accessToken db = some out) :
    out.finalToken = accessToken ∧ out.logins = 0 ∧
    out.usedTokens = List.replicate ids.length (some accessToken) := by
  simp only [processTradeInflow] at h
  cases hl : processTradeInflowLoop w now sc ids accessToken db with
  | none => rw [hl] at h; cases h
  | some r =>
      rw [hl] at h
      dsimp only at h
      obtain ⟨h1, h2, h3⟩ := processLoop_token w now sc ids accessToken db r hl
      injection h with h
      subst h
      exact ⟨h1, h2, h3⟩

/-- Witness for C4: a concrete cycle over assets `[5, 6]` with token `"old"`
and an unreachable fund-flow endpoint completes with zero logins, the token
variable unchanged, and both requests carrying `"old"`. -/
theorem claim_C4_witness :
    processTradeInflow flowWireDown 0 testStrConv (.ok [5, 6]) "old" [] =
      some flowOutDown ∧
    flowOutDown.finalToken = "old" ∧ flowOutDown.logins = 0 ∧
    flowOutDown.usedTokens = List.replicate 2 (some "old") := by
  have h : processTradeInflow flowWireDown 0 testStrConv (.ok [5, 6]) "old" [] =
      some flowOutDown := by decide
  have h2 := claim_C4_token_not_threaded flowWireDown 0 testStrConv [5, 6] "old" []
    flowOutDown h
  exact ⟨h, h2.1, h2.2.1, h2.2.2⟩
